import Mathlib

/-!
Verification of the flight-trajectory planner (`generate_spiral_csv.py`) and the
mission executor (`rainbow_spiral_offboard_from_csv.py`).

Conventions of the embedding:
* Python floats are modelled as exact rationals (`ℚ`); the spec's "within
  floating tolerance" clauses become exact equalities.
* `math.dist` is the Euclidean distance, i.e. the square root of `sqDist`.
  Square roots are irrational in general, so every comparison the source makes
  against a distance is embedded as the equivalent comparison of squares:
  for `s ≤ 0` the float test `sqrt d2 ≥ s` is always true, and for `s > 0`
  it is equivalent to `d2 ≥ s ^ 2` (see `distGe`).
* Python `int(x)` truncates toward zero; `pyInt` embeds it.
* A Python expression that raises (`ZeroDivisionError`, `KeyError`, an uncaught
  device exception) is embedded in an `Option`/error branch.
-/

/-- A 3D position: the (x, y, z) triple of rationals. -/
abbrev Pt := ℚ × ℚ × ℚ

/-- Squared Euclidean distance between two points; `math.dist a b` is its
square root. -/
def sqDist (a b : Pt) : ℚ :=
  (a.1 - b.1) ^ 2 + (a.2.1 - b.2.1) ^ 2 + (a.2.2 - b.2.2) ^ 2

/-- Python `int(x)`: truncation toward zero. -/
def pyInt (q : ℚ) : ℤ := if 0 ≤ q then ⌊q⌋ else -⌊-q⌋

/-- Component-wise linear interpolation between two points, as computed inside
the loop of `generate_move_points` (lines 50-54 of `generate_spiral_csv.py`). -/
def lerp (p0 p1 : Pt) (t : ℚ) : Pt :=
  (p0.1 + (p1.1 - p0.1) * t, p0.2.1 + (p1.2.1 - p0.2.1) * t,
   p0.2.2 + (p1.2.2 - p0.2.2) * t)

/-- `generate_move_points(p0, p1, step_dist)` (lines 43-55 of
`generate_spiral_csv.py`).  The source computes
`steps = int(math.dist(p0, p1) / step_dist)`; for `step_dist > 0` this equals
`Nat.sqrt ⌊sqDist p0 p1 / step_dist ^ 2⌋` because
`⌊sqrt d2 / s⌋ = ⌊sqrt (d2 / s ^ 2)⌋` and `⌊sqrt q⌋ = Nat.sqrt ⌊q⌋` for
`q ≥ 0`.  When the endpoints differ but `steps` floors to `0`, the source
evaluates `t = i / steps` with `steps = 0` and raises `ZeroDivisionError`;
that branch is embedded as `none`. -/
def generate_move_points (p0 p1 : Pt) (step_dist : ℚ) : Option (List Pt) :=
  if sqDist p0 p1 = 0 then some [p0]
  else
    if Nat.sqrt (⌊sqDist p0 p1 / step_dist ^ 2⌋).toNat = 0 then none
    else
      some ((List.range (Nat.sqrt (⌊sqDist p0 p1 / step_dist ^ 2⌋).toNat + 1)).map
        fun i : ℕ => lerp p0 p1 ((i : ℚ) / (Nat.sqrt (⌊sqDist p0 p1 / step_dist ^ 2⌋).toNat : ℚ)))

/-- `hold_points(p, seconds)` (lines 77-79 of `generate_spiral_csv.py`), with
the module-level `time_step` passed explicitly:
`count = int(seconds / time_step); return [p]*count`
(a negative `count` makes `[p]*count` the empty list, as does `.toNat`). -/
def hold_points (p : Pt) (seconds time_step : ℚ) : List Pt :=
  List.replicate (pyInt (seconds / time_step)).toNat p

/-- The seed increment `dt = 0.0001` of the inner search of `generate_spiral`
(line 63 of `generate_spiral_csv.py`). -/
def seedDt : ℚ := 1 / 10000

/-- The acceptance test `dist(prev, cand) >= spacing` of `generate_spiral`
(line 69), stated on squares: for `s ≤ 0` the float test always holds, and for
`s > 0` it is equivalent to `s ^ 2 ≤ sqDist prev cand`. -/
def distGe (a b : Pt) (s : ℚ) : Prop := s ≤ 0 ∨ s ^ 2 ≤ sqDist a b

instance (a b : Pt) (s : ℚ) : Decidable (distGe a b s) := by
  unfold distGe; infer_instance

/-- The exit condition of one probe of the inner search of `generate_spiral`
at growth exponent `k` (candidate increment `seedDt * (3/2) ^ k`): either the
candidate parameter exceeds 1 (line 66) or the spacing test passes (line 69). -/
def innerProp (f : ℚ → Pt) (s t : ℚ) (prev : Pt) (k : ℕ) : Prop :=
  1 < t + seedDt * (3 / 2) ^ k ∨ distGe prev (f (t + seedDt * (3 / 2) ^ k)) s

instance (f : ℚ → Pt) (s t : ℚ) (prev : Pt) : DecidablePred (innerProp f s t prev) := by
  intro k; unfold innerProp; infer_instance

lemma innerProp_exists (f : ℚ → Pt) (s t : ℚ) (prev : Pt) :
    ∃ k, innerProp f s t prev k := by
  obtain ⟨k, hk⟩ :=
    pow_unbounded_of_one_lt ((1 - t) / seedDt) (by norm_num : (1 : ℚ) < 3 / 2)
  refine ⟨k, Or.inl ?_⟩
  have hd : (0 : ℚ) < seedDt := by norm_num [seedDt]
  rw [div_lt_iff hd] at hk
  linarith

/-- The candidate parameter accepted or rejected by one run of the inner
search: the source tries `dt = seedDt * (3/2) ^ k` for `k = 0, 1, 2, ...` and
stops at the first `k` whose probe exits (lines 62-74); `Nat.find` selects
exactly that `k`. -/
def candT (f : ℚ → Pt) (s t : ℚ) (prev : Pt) : ℚ :=
  t + seedDt * (3 / 2) ^ Nat.find (innerProp_exists f s t prev)

lemma candT_ge (f : ℚ → Pt) (s t : ℚ) (prev : Pt) : t + seedDt ≤ candT f s t prev := by
  unfold candT
  have hk1 : (1 : ℚ) ≤ (3 / 2 : ℚ) ^ Nat.find (innerProp_exists f s t prev) :=
    one_le_pow₀ (by norm_num)
  have hd : (0 : ℚ) < seedDt := by norm_num [seedDt]
  nlinarith

lemma ceil_measure_lt (t c : ℚ) (h : t < 1) (hc : c ≤ 1) (hs : t + seedDt ≤ c) :
    (⌈(1 - c) / seedDt⌉).toNat < (⌈(1 - t) / seedDt⌉).toNat := by
  have hd : (0 : ℚ) < seedDt := by norm_num [seedDt]
  have h1 : 0 < ⌈(1 - t) / seedDt⌉ :=
    Int.lt_ceil.mpr (by push_cast; exact div_pos (by linarith) hd)
  have hle : (1 - c) / seedDt ≤ (1 - t) / seedDt - 1 := by
    have e1 : (1 - t) / seedDt - 1 = ((1 - t) - seedDt) / seedDt := by
      field_simp
    rw [e1, div_le_div_iff hd hd]
    nlinarith
  have h2 : ⌈(1 - c) / seedDt⌉ ≤ ⌈(1 - t) / seedDt⌉ - 1 := by
    have hm := Int.ceil_mono hle
    rwa [Int.ceil_sub_one] at hm
  omega

/-- The outer loop of `generate_spiral` (lines 62-74 of
`generate_spiral_csv.py`), generalized over the curve evaluator `f` (the
source instantiates `f` with `spiral_position`, whose sine/cosine values are
irrational and are therefore kept abstract).  Returns the accepted
`(parameter, point)` pairs after the initial point: starting from the last
accepted parameter `t`, the inner search finds the first grown increment whose
candidate either leaves `[0, 1]` (the whole sampler returns, line 67) or
satisfies the spacing test (the candidate is accepted, lines 70-72). -/
def spiralAux (f : ℚ → Pt) (s : ℚ) (t : ℚ) (prev : Pt) : List (ℚ × Pt) :=
  if h : t < 1 then
    if hc : 1 < candT f s t prev then []
    else (candT f s t prev, f (candT f s t prev)) ::
      spiralAux f s (candT f s t prev) (f (candT f s t prev))
  else []
termination_by (⌈(1 - t) / seedDt⌉).toNat
decreasing_by
  exact ceil_measure_lt t (candT f s t prev) h (le_of_not_lt hc) (candT_ge f s t prev)

/-- `generate_spiral()` (lines 57-75 of `generate_spiral_csv.py`), generalized
over the curve evaluator: the point at parameter 0 followed by the accepted
points of the adaptive search. -/
def generate_spiral (f : ℚ → Pt) (s : ℚ) : List Pt :=
  f 0 :: (spiralAux f s 0 (f 0)).map (·.2)

/-- The anchor-color list `RAINBOW_COLORS` (lines 19-24 of
`rainbow_spiral_offboard_from_csv.py`). -/
def RAINBOW_COLORS : List Pt :=
  [(1, 0, 0), (1, 0, 1), (0, 1, 0), (0, 0, 1)]

/-- `interpolate_color(idx, total_points)` (lines 26-41 of
`rainbow_spiral_offboard_from_csv.py`).  `idx` and `total_points` are the
nonnegative integers the executor passes.  Python `int` truncation on
`t_total / segment_length` coincides with the floor since both operands are
nonnegative; `max(1, total_points - 1)` coincides with `max 1 (total - 1)` in
truncated ℕ subtraction (both yield 1 for `total ∈ {0, 1}`). -/
def interpolate_color (idx total : ℕ) : Pt :=
  let numSegments : ℕ := RAINBOW_COLORS.length - 1
  let tTotal : ℚ := (idx : ℚ) / ((max 1 (total - 1) : ℕ) : ℚ)
  let segmentLength : ℚ := 1 / (numSegments : ℚ)
  let segmentIdx : ℕ := min (⌊tTotal / segmentLength⌋).toNat (numSegments - 1)
  let tSegment : ℚ := (tTotal - (segmentIdx : ℚ) * segmentLength) / segmentLength
  let c0 := RAINBOW_COLORS.getD segmentIdx (0, 0, 0)
  let c1 := RAINBOW_COLORS.getD (segmentIdx + 1) (0, 0, 0)
  let rgb : Pt := (c0.1 + (c1.1 - c0.1) * tSegment,
                   c0.2.1 + (c1.2.1 - c0.2.1) * tSegment,
                   c0.2.2 + (c1.2.2 - c0.2.2) * tSegment)
  let maxChannel := max rgb.1 (max rgb.2.1 rgb.2.2)
  if 0 < maxChannel then (rgb.1 / maxChannel, rgb.2.1 / maxChannel, rgb.2.2 / maxChannel)
  else rgb

/-- One waypoint as consumed by the executor's trajectory loop: the parsed
position (`waypoint[1:4]`) and mode code (`waypoint[-1]`). -/
structure Waypoint where
  pos : Pt
  mode : ℤ
deriving DecidableEq, Repr

/-- The executor's loop state: `last_mode` (initially 0) and `lights_on`
(initially `False`), lines 110-111 of `rainbow_spiral_offboard_from_csv.py`. -/
structure ExecState where
  lastMode : ℤ
  lightsOn : Bool
deriving DecidableEq, Repr

/-- The mode codes present in the executor's `mode_descriptions` table
(lines 46-56).  A mode outside this table makes the mode-change print raise
`KeyError`. -/
def validMode (m : ℤ) : Bool :=
  m = 0 || m = 10 || m = 20 || m = 30 || m = 40 || m = 50 || m = 60 || m = 70 || m = 80

/-- Observable device/console events of one mission run. -/
inductive Ev where
  | arm
  | setInitial
  | offboardStarted
  | offboardStartFailed
  | modeChange (m : ℤ)
  | followFlightMode
  | setMatrixOk (c : Pt)
  | setMatrixFailed
  | setPosition (p : Pt)
  | land
  | offboardStopOk
  | offboardStopFailed
  | disarm
deriving DecidableEq, Repr

/-- The mode-change block of the waypoint loop (lines 121-131 of
`rainbow_spiral_offboard_from_csv.py`).  `ffmF i` says whether the
`follow_flight_mode` device call fails at step `i`; that call is NOT wrapped
in try/except in the source, so its failure is an uncaught exception,
embedded as the `.error` branch carrying the events emitted so far.  A mode
code missing from `mode_descriptions` raises `KeyError` inside the
mode-change print, before any event. -/
def modeChangeStep (ffmF : ℕ → Bool) (s : ExecState) (i : ℕ) (w : Waypoint) :
    Except (List Ev) (List Ev × ExecState) :=
  if s.lastMode = w.mode then .ok ([], s)
  else if validMode w.mode = false then .error []
  else
    if w.mode = 50 ∧ s.lightsOn = false then
      .ok ([.modeChange w.mode], ⟨w.mode, true⟩)
    else if w.mode ≠ 50 ∧ s.lightsOn = true then
      if ffmF i then .error [.modeChange w.mode]
      else .ok ([.modeChange w.mode, .followFlightMode], ⟨w.mode, false⟩)
    else .ok ([.modeChange w.mode], ⟨w.mode, s.lightsOn⟩)

/-- The periodic indicator update (lines 133-141): during the tracing mode,
every 10th step pushes `interpolate_color(i, total)`; a `LightsError` from
`set_matrix` is caught and reported (`.setMatrixFailed`), never propagated. -/
def lightsStep (smF : ℕ → Bool) (total i : ℕ) (w : Waypoint) : List Ev :=
  if w.mode = 50 ∧ i % 10 = 0 then
    if smF i then [.setMatrixFailed] else [.setMatrixOk (interpolate_color i total)]
  else []

/-- The waypoint loop (lines 117-144) over the enumerated waypoints.  Returns
the emitted events and whether the loop ran to completion (`false` when an
uncaught exception aborted the mission mid-loop). -/
def runWaypoints (ffmF smF : ℕ → Bool) (total : ℕ) (s : ExecState) :
    List (ℕ × Waypoint) → List Ev × Bool
  | [] => ([], true)
  | (i, w) :: rest =>
    match modeChangeStep ffmF s i w with
    | .error evs => (evs, false)
    | .ok (evs1, s1) =>
      let r := runWaypoints ffmF smF total s1 rest
      (evs1 ++ lightsStep smF total i w ++ Ev.setPosition w.pos :: r.1, r.2)

/-- The mission body of `run` after arming (lines 77-160 of
`rainbow_spiral_offboard_from_csv.py`): arm, initial setpoint, offboard start
(failure caught: report, disarm, return, lines 87-93), the waypoint loop, then
land, offboard stop (failure caught: report and proceed, lines 153-157) and
disarm.  An uncaught exception in the loop aborts everything after it. -/
def mission (obStartF obStopF : Bool) (ffmF smF : ℕ → Bool) (ws : List Waypoint) :
    List Ev :=
  if obStartF then [.arm, .setInitial, .offboardStartFailed, .disarm]
  else
    let r := runWaypoints ffmF smF ws.length ⟨0, false⟩ ws.enum
    if r.2 then
      [Ev.arm, Ev.setInitial, Ev.offboardStarted] ++ r.1 ++
        [Ev.land, (if obStopF then Ev.offboardStopFailed else Ev.offboardStopOk), Ev.disarm]
    else [Ev.arm, Ev.setInitial, Ev.offboardStarted] ++ r.1

/-- The positions commanded by `set_position_ned` inside the waypoint loop,
in order of issue. -/
def positionsOf (evs : List Ev) : List Pt :=
  evs.filterMap fun e => match e with | .setPosition p => some p | _ => none

/-- The colors successfully pushed to the light matrix, in order of issue. -/
def colorsPushed (evs : List Ev) : List Pt :=
  evs.filterMap fun e => match e with | .setMatrixOk c => some c | _ => none

/-- One record of the CSV exported by `generate_spiral_csv.py` (lines 176-180):
the header row is `index,x,y,z,mode,r,g,b` and each data row binds those field
names to the waypoint's values. -/
def exportRecord (i : ℕ) (p : Pt) (m : ℤ) (c : Pt) : List (String × ℚ) :=
  [("index", (i : ℚ)), ("x", p.1), ("y", p.2.1), ("z", p.2.2),
   ("mode", (m : ℚ)), ("r", c.1), ("g", c.2.1), ("b", c.2.2)]

/-- The executor's per-row parse (lines 98-107 of
`rainbow_spiral_offboard_from_csv.py`): it reads
`row["index"], row["px"], row["py"], row["pz"], row["mode"]` from the
`csv.DictReader` record; a missing field name raises `KeyError`, embedded as
`none`. -/
def parseWaypointRecord (row : List (String × ℚ)) : Option (ℚ × Pt × ℤ) := do
  let idx ← row.lookup "index"
  let px ← row.lookup "px"
  let py ← row.lookup "py"
  let pz ← row.lookup "pz"
  let m ← row.lookup "mode"
  pure (idx, (px, py, pz), pyInt m)

/-- Modelled from the spec ("the total number of points in the tracing
segment"): the number of waypoints whose mode is the tracing mode 50. -/
def specTracingCount (ws : List Waypoint) : ℕ :=
  (ws.filter fun w => w.mode = 50).length

/-- Modelled from the spec ("whose mode is the tracing mode (50) and whose
index is a multiple of the fixed stride (10)"): the indices at which the
periodic indicator update fires. -/
def specStrideIndices (ws : List Waypoint) : List ℕ :=
  (ws.enum.filter fun p => p.2.mode = 50 ∧ p.1 % 10 = 0).map (·.1)

/-- A 20-waypoint mission: ten waypoints of mode 10 followed by ten of the
tracing mode 50 (so the tracing segment has 10 points but the flattened
sequence has 20). -/
def wsTwoRuns : List Waypoint :=
  [⟨(0, 0, 0), 10⟩, ⟨(0, 0, 0), 10⟩, ⟨(0, 0, 0), 10⟩, ⟨(0, 0, 0), 10⟩, ⟨(0, 0, 0), 10⟩,
   ⟨(0, 0, 0), 10⟩, ⟨(0, 0, 0), 10⟩, ⟨(0, 0, 0), 10⟩, ⟨(0, 0, 0), 10⟩, ⟨(0, 0, 0), 10⟩,
   ⟨(0, 0, 0), 50⟩, ⟨(0, 0, 0), 50⟩, ⟨(0, 0, 0), 50⟩, ⟨(0, 0, 0), 50⟩, ⟨(0, 0, 0), 50⟩,
   ⟨(0, 0, 0), 50⟩, ⟨(0, 0, 0), 50⟩, ⟨(0, 0, 0), 50⟩, ⟨(0, 0, 0), 50⟩, ⟨(0, 0, 0), 50⟩]

/-- A 2-waypoint mission that leaves the tracing mode at step 1: mode 50 then
mode 10, so step 1 issues the `follow_flight_mode` device call. -/
def wsLightsCrash : List Waypoint := [⟨(0, 0, 0), 50⟩, ⟨(1, 1, 1), 10⟩]

lemma sqDist_nonneg (a b : Pt) : 0 ≤ sqDist a b := by
  unfold sqDist; positivity

lemma sqDist_eq_zero_iff (a b : Pt) : sqDist a b = 0 ↔ a = b := by
  unfold sqDist
  constructor
  · intro h
    have h1 : (a.1 - b.1) ^ 2 = 0 := by nlinarith [sq_nonneg (a.1 - b.1), sq_nonneg (a.2.1 - b.2.1), sq_nonneg (a.2.2 - b.2.2)]
    have h2 : (a.2.1 - b.2.1) ^ 2 = 0 := by nlinarith [sq_nonneg (a.1 - b.1), sq_nonneg (a.2.1 - b.2.1), sq_nonneg (a.2.2 - b.2.2)]
    have h3 : (a.2.2 - b.2.2) ^ 2 = 0 := by nlinarith [sq_nonneg (a.1 - b.1), sq_nonneg (a.2.1 - b.2.1), sq_nonneg (a.2.2 - b.2.2)]
    have e1 : a.1 = b.1 := by nlinarith [sq_nonneg (a.1 - b.1)]
    have e2 : a.2.1 = b.2.1 := by nlinarith [sq_nonneg (a.2.1 - b.2.1)]
    have e3 : a.2.2 = b.2.2 := by nlinarith [sq_nonneg (a.2.2 - b.2.2)]
    exact Prod.ext e1 (Prod.ext e2 e3)
  · intro h; subst h; ring

lemma lerp_zero (p0 p1 : Pt) : lerp p0 p1 0 = p0 := by
  unfold lerp
  refine Prod.ext ?_ (Prod.ext ?_ ?_) <;> simp

lemma lerp_one (p0 p1 : Pt) : lerp p0 p1 1 = p1 := by
  unfold lerp
  refine Prod.ext ?_ (Prod.ext ?_ ?_) <;> simp

/-- C1: the executor's parse reads the fields `px`, `py`, `pz`, which are
absent from every exported record (whose fields are
`index, x, y, z, mode, r, g, b`), so parsing an exported record raises
`KeyError` (`none`): the exported record set is NOT consumable as the
executor's input, and no position is ever parsed from it. -/
theorem parse_rejects_export (i : ℕ) (p : Pt) (m : ℤ) (c : Pt) :
    parseWaypointRecord (exportRecord i p m c) = none := by
  simp [parseWaypointRecord, exportRecord, List.lookup]

/-- C4 counterexample: for the distinct endpoints `(0,0,0)` and `(1/2,0,0)`
with the positive spacing 1, the move sampler returns no point list at all
(the `steps = 0` division raises), so the claim's conclusion (first point
`p0`, last point `p1`) fails as stated. -/
theorem move_points_cex :
    generate_move_points (0, 0, 0) (1/2, 0, 0) 1 = none ∧
      ((0, 0, 0) : Pt) ≠ ((1/2 : ℚ), 0, 0) ∧ (0 : ℚ) < 1 := by
  refine ⟨?_, by norm_num [Prod.ext_iff], by norm_num⟩
  norm_num [generate_move_points, sqDist, Nat.sqrt_zero]

/-- C4 (amended): for distinct endpoints whose distance is at least the
(positive) spacing, the move sampler returns a list whose first point is
`p0`, whose last point is `p1`, and whose `i`-th point is the component-wise
linear interpolation at the evenly spaced parameter `t = i / steps`. -/
theorem move_points_endpoints (p0 p1 : Pt) (s : ℚ) (hne : p0 ≠ p1) (hs : 0 < s)
    (hd : s ^ 2 ≤ sqDist p0 p1) :
    ∃ pts, generate_move_points p0 p1 s = some pts ∧
      pts.head? = some p0 ∧ pts.getLast? = some p1 ∧ 2 ≤ pts.length ∧
      ∀ i < pts.length, pts[i]? = some (lerp p0 p1 ((i : ℚ) / ((pts.length : ℚ) - 1))) := by
  have hs2 : 0 < s ^ 2 := pow_pos hs 2
  have hd0 : sqDist p0 p1 ≠ 0 := fun h => hne ((sqDist_eq_zero_iff p0 p1).mp h)
  have hq1 : (1 : ℚ) ≤ sqDist p0 p1 / s ^ 2 := (one_le_div hs2).mpr hd
  have hfl : 1 ≤ ⌊sqDist p0 p1 / s ^ 2⌋ := by
    exact_mod_cast Int.le_floor.mpr (by exact_mod_cast hq1)
  have htn : 1 ≤ (⌊sqDist p0 p1 / s ^ 2⌋).toNat := by omega
  have hsq : 1 ≤ Nat.sqrt (⌊sqDist p0 p1 / s ^ 2⌋).toNat := by
    calc 1 = Nat.sqrt 1 := by simp
    _ ≤ _ := Nat.sqrt_le_sqrt htn
  set n : ℕ := Nat.sqrt (⌊sqDist p0 p1 / s ^ 2⌋).toNat with hn
  have hne' : (n : ℚ) ≠ 0 := Nat.cast_ne_zero.mpr (by omega)
  refine ⟨(List.range (n + 1)).map fun i : ℕ => lerp p0 p1 ((i : ℚ) / (n : ℚ)),
    ?_, ?_, ?_, ?_, ?_⟩
  · simp only [generate_move_points, if_neg hd0, ← hn, if_neg (by omega : ¬ n = 0)]
  · rw [List.head?_map]
    have hh : (List.range (n + 1)).head? = some 0 := by
      rw [List.range_succ_eq_map]
      simp
    rw [hh]
    simp [lerp_zero]
  · rw [List.getLast?_map]
    have hl : (List.range (n + 1)).getLast? = some n := by
      rw [List.range_succ]
      simp
    rw [hl]
    simp only [Option.map_some']
    rw [div_self hne', lerp_one]
  · simp only [List.length_map, List.length_range]
    omega
  · intro i hi
    simp only [List.length_map, List.length_range] at hi
    have hcast : ((((List.range (n + 1)).map fun i : ℕ => lerp p0 p1 ((i : ℚ) / (n : ℚ))).length : ℚ) - 1) = (n : ℚ) := by
      simp only [List.length_map, List.length_range]
      push_cast
      ring
    rw [hcast, List.getElem?_map, List.getElem?_range hi]
    simp

/-- C4 witness: the amended theorem applied to the move from the origin to
`(0,0,1)` with spacing `1/2`. -/
theorem move_points_endpoints_witness :
    (((0, 0, 0) : Pt) ≠ ((0 : ℚ), 0, 1) ∧ (0 : ℚ) < 1/2 ∧
      (1/2 : ℚ) ^ 2 ≤ sqDist (0, 0, 0) (0, 0, 1)) ∧
    (∃ pts, generate_move_points (0, 0, 0) (0, 0, 1) (1/2) = some pts ∧
      pts.head? = some (0, 0, 0) ∧ pts.getLast? = some (0, 0, 1) ∧ 2 ≤ pts.length ∧
      ∀ i < pts.length, pts[i]? = some (lerp (0, 0, 0) (0, 0, 1) ((i : ℚ) / ((pts.length : ℚ) - 1)))) :=
  ⟨⟨by norm_num [Prod.ext_iff], by norm_num, by norm_num [sqDist]⟩,
    move_points_endpoints (0, 0, 0) (0, 0, 1) (1/2)
      (by norm_num [Prod.ext_iff]) (by norm_num) (by norm_num [sqDist])⟩

/-- C5: with positive spacing, the move sampler on distinct endpoints closer
than the spacing hits the unguarded `t = i / steps` division with
`steps = 0` (embedded as `none`), and it returns a value exactly when the
endpoints coincide or their distance is at least the spacing. -/
theorem move_points_div_zero (p0 p1 : Pt) (s : ℚ) (hs : 0 < s) :
    (0 < sqDist p0 p1 → sqDist p0 p1 < s ^ 2 → generate_move_points p0 p1 s = none) ∧
    ((generate_move_points p0 p1 s).isSome ↔
      (sqDist p0 p1 = 0 ∨ s ^ 2 ≤ sqDist p0 p1)) := by
  have hs2 : 0 < s ^ 2 := pow_pos hs 2
  have hnone : 0 < sqDist p0 p1 → sqDist p0 p1 < s ^ 2 → generate_move_points p0 p1 s = none := by
    intro h1 h2
    have hlt : sqDist p0 p1 / s ^ 2 < 1 := (div_lt_one hs2).mpr h2
    have hge : 0 ≤ sqDist p0 p1 / s ^ 2 := div_nonneg h1.le hs2.le
    have hfl : ⌊sqDist p0 p1 / s ^ 2⌋ = 0 :=
      Int.floor_eq_zero_iff.mpr (Set.mem_Ico.mpr ⟨hge, hlt⟩)
    simp [generate_move_points, h1.ne', hfl]
  refine ⟨hnone, ?_⟩
  constructor
  · intro hsome
    by_contra hcon
    push_neg at hcon
    obtain ⟨h0, hlt⟩ := hcon
    have hpos : 0 < sqDist p0 p1 := lt_of_le_of_ne (sqDist_nonneg p0 p1) (Ne.symm h0)
    rw [hnone hpos hlt] at hsome
    simp at hsome
  · rintro (h0 | hge)
    · simp [generate_move_points, h0]
    · have hd0 : sqDist p0 p1 ≠ 0 := (lt_of_lt_of_le hs2 hge).ne'
      have hq1 : (1 : ℚ) ≤ sqDist p0 p1 / s ^ 2 := (one_le_div hs2).mpr hge
      have hfl : 1 ≤ ⌊sqDist p0 p1 / s ^ 2⌋ := by
        exact_mod_cast Int.le_floor.mpr (by exact_mod_cast hq1)
      have hsq : 1 ≤ Nat.sqrt (⌊sqDist p0 p1 / s ^ 2⌋).toNat := by
        calc 1 = Nat.sqrt 1 := by simp
        _ ≤ _ := Nat.sqrt_le_sqrt (by omega)
      have hne0 : ¬ Nat.sqrt (⌊sqDist p0 p1 / s ^ 2⌋).toNat = 0 := by omega
      simp [generate_move_points, hd0, hne0]

/-- C5 witness: endpoints `(0,0,0)` and `(1/2,0,0)` at spacing 1 (distance
`1/2 < 1`): the sampler fails; and the totality clause at the same spacing. -/
theorem move_points_div_zero_witness :
    (0 : ℚ) < 1 ∧
    ((0 < sqDist (0, 0, 0) ((1/2 : ℚ), 0, 0) →
        sqDist (0, 0, 0) ((1/2 : ℚ), 0, 0) < 1 ^ 2 →
        generate_move_points (0, 0, 0) ((1/2 : ℚ), 0, 0) 1 = none) ∧
      ((generate_move_points (0, 0, 0) ((1/2 : ℚ), 0, 0) 1).isSome ↔
        (sqDist (0, 0, 0) ((1/2 : ℚ), 0, 0) = 0 ∨
          1 ^ 2 ≤ sqDist (0, 0, 0) ((1/2 : ℚ), 0, 0)))) :=
  ⟨by norm_num, move_points_div_zero (0, 0, 0) ((1/2 : ℚ), 0, 0) 1 (by norm_num)⟩

/-- C6: for duration `D ≥ 0` and time step `S > 0`, the hold sampler returns
exactly `⌊D / S⌋` copies of the input point, and `D < S` yields the empty
segment. -/
theorem hold_points_floor (p : Pt) (D S : ℚ) (hD : 0 ≤ D) (hS : 0 < S) :
    (hold_points p D S).length = (⌊D / S⌋).toNat ∧
    (∀ q ∈ hold_points p D S, q = p) ∧
    (D < S → hold_points p D S = []) := by
  have hq : 0 ≤ D / S := div_nonneg hD hS.le
  have hfl : pyInt (D / S) = ⌊D / S⌋ := by simp [pyInt, hq]
  refine ⟨by simp [hold_points, hfl], fun q hq' => List.eq_of_mem_replicate hq', fun hDS => ?_⟩
  have hlt : D / S < 1 := (div_lt_one hS).mpr hDS
  have h0 : ⌊D / S⌋ = 0 := Int.floor_eq_zero_iff.mpr (Set.mem_Ico.mpr ⟨hq, hlt⟩)
  simp [hold_points, hfl, h0]

/-- C6 witness: a hold of duration `1/20` with step `1/10` (shorter than one
step). -/
theorem hold_points_floor_witness :
    ((0 : ℚ) ≤ 1/20 ∧ (0 : ℚ) < 1/10) ∧
    ((hold_points (0, 0, 0) (1/20) (1/10)).length = (⌊(1/20 : ℚ) / (1/10)⌋).toNat ∧
      (∀ q ∈ hold_points (0, 0, 0) (1/20) (1/10), q = (0, 0, 0)) ∧
      ((1/20 : ℚ) < 1/10 → hold_points (0, 0, 0) (1/20) (1/10) = [])) :=
  ⟨⟨by norm_num, by norm_num⟩,
    hold_points_floor (0, 0, 0) (1/20) (1/10) (by norm_num) (by norm_num)⟩

/-- C8: for every total point count `T ≥ 2`, the Color Interpolator yields the
first anchor color `(1,0,0)` at index 0 and the last anchor color `(0,0,1)`
at index `T - 1` (both already normalized: their maximum channel is 1). -/
theorem interpolate_color_endpoints (T : ℕ) (hT : 2 ≤ T) :
    interpolate_color 0 T = (1, 0, 0) ∧ interpolate_color (T - 1) T = (0, 0, 1) := by
  have hmax : max 1 (T - 1) = T - 1 := max_eq_right (by omega)
  have hcast : ((T - 1 : ℕ) : ℚ) ≠ 0 := Nat.cast_ne_zero.mpr (by omega)
  have hdiv : ((T - 1 : ℕ) : ℚ) / ((T - 1 : ℕ) : ℚ) = 1 := div_self hcast
  constructor
  · norm_num [interpolate_color, RAINBOW_COLORS, hmax, max_def]
  · norm_num [interpolate_color, RAINBOW_COLORS, hmax, hdiv, max_def]

/-- C8 witness: the endpoint property at total point count 5. -/
theorem interpolate_color_endpoints_witness :
    2 ≤ 5 ∧ (interpolate_color 0 5 = (1, 0, 0) ∧ interpolate_color (5 - 1) 5 = (0, 0, 1)) :=
  ⟨by norm_num, interpolate_color_endpoints 5 (by norm_num)⟩

/-- C7: if starting offboard mode fails, the executor reports the failure,
disarms and returns at once: the whole trace is
`arm, initial setpoint, offboard-start failure, disarm` — no trajectory
position command is issued and neither landing nor offboard-stop runs. -/
theorem offboard_start_failure_aborts (obStopF : Bool) (ffmF smF : ℕ → Bool)
    (ws : List Waypoint) :
    mission true obStopF ffmF smF ws =
      [.arm, .setInitial, .offboardStartFailed, .disarm] ∧
    (∀ p, Ev.setPosition p ∉ mission true obStopF ffmF smF ws) ∧
    Ev.land ∉ mission true obStopF ffmF smF ws ∧
    Ev.offboardStopOk ∉ mission true obStopF ffmF smF ws ∧
    Ev.offboardStopFailed ∉ mission true obStopF ffmF smF ws := by
  have h : mission true obStopF ffmF smF ws =
      [.arm, .setInitial, .offboardStartFailed, .disarm] := rfl
  refine ⟨h, ?_, ?_, ?_, ?_⟩ <;> simp [h]

lemma positionsOf_append (a b : List Ev) :
    positionsOf (a ++ b) = positionsOf a ++ positionsOf b := by
  simp [positionsOf]

lemma colorsPushed_append (a b : List Ev) :
    colorsPushed (a ++ b) = colorsPushed a ++ colorsPushed b := by
  simp [colorsPushed]

lemma modeChangeStep_no_ffm_fail (s : ExecState) (i : ℕ) (w : Waypoint)
    (hv : validMode w.mode = true) :
    ∃ evs s1, modeChangeStep (fun _ => false) s i w = .ok (evs, s1) ∧
      positionsOf evs = [] ∧ colorsPushed evs = [] := by
  unfold modeChangeStep
  by_cases h1 : s.lastMode = w.mode
  · exact ⟨[], s, by simp [h1], rfl, rfl⟩
  · rw [if_neg h1, hv]
    by_cases h2 : w.mode = 50 ∧ s.lightsOn = false
    · exact ⟨[.modeChange w.mode], ⟨w.mode, true⟩, by simp [h2],
        by simp [positionsOf], by simp [colorsPushed]⟩
    · rw [if_neg h2]
      by_cases h3 : w.mode ≠ 50 ∧ s.lightsOn = true
      · exact ⟨[.modeChange w.mode, .followFlightMode], ⟨w.mode, false⟩,
          by simp [h3], by simp [positionsOf], by simp [colorsPushed]⟩
      · exact ⟨[.modeChange w.mode], ⟨w.mode, s.lightsOn⟩, by simp [h3],
          by simp [positionsOf], by simp [colorsPushed]⟩

lemma lightsStep_positions (smF : ℕ → Bool) (total i : ℕ) (w : Waypoint) :
    positionsOf (lightsStep smF total i w) = [] := by
  unfold lightsStep
  split
  · split <;> simp [positionsOf]
  · simp [positionsOf]

lemma lightsStep_colors (smF : ℕ → Bool) (total i : ℕ) (w : Waypoint) :
    colorsPushed (lightsStep smF total i w) =
      if w.mode = 50 ∧ i % 10 = 0 ∧ smF i = false
      then [interpolate_color i total] else [] := by
  unfold lightsStep
  by_cases h : w.mode = 50 ∧ i % 10 = 0
  · rw [if_pos h]
    by_cases hs : smF i
    · simp [hs, colorsPushed, h]
    · simp at hs
      simp [hs, colorsPushed, h]
  · rw [if_neg h]
    have : ¬ (w.mode = 50 ∧ i % 10 = 0 ∧ smF i = false) := by tauto
    simp [this, colorsPushed]

/-- When the `follow_flight_mode` call never fails and every mode code is in
the description table, the waypoint loop runs to completion; it commands
exactly the waypoints' positions in order, and the colors it successfully
pushes are `interpolate_color i total` at exactly the stride steps of the
tracing mode where `set_matrix` does not fail. -/
lemma runWaypoints_no_ffm_fail (smF : ℕ → Bool) (total : ℕ) :
    ∀ (ws : List Waypoint) (n : ℕ) (s : ExecState),
      (∀ w ∈ ws, validMode w.mode = true) →
      (runWaypoints (fun _ => false) smF total s (List.enumFrom n ws)).2 = true ∧
      positionsOf (runWaypoints (fun _ => false) smF total s (List.enumFrom n ws)).1 =
        ws.map (·.pos) ∧
      colorsPushed (runWaypoints (fun _ => false) smF total s (List.enumFrom n ws)).1 =
        ((List.enumFrom n ws).filter
            fun p => p.2.mode = 50 ∧ p.1 % 10 = 0 ∧ smF p.1 = false).map
          fun p => interpolate_color p.1 total := by
  intro ws
  induction ws with
  | nil =>
    intro n s _
    simp [runWaypoints, positionsOf, colorsPushed, List.enumFrom]
  | cons w t ih =>
    intro n s hvalid
    have hv : validMode w.mode = true := hvalid w (List.mem_cons_self w t)
    have hvt : ∀ x ∈ t, validMode x.mode = true :=
      fun x hx => hvalid x (List.mem_cons_of_mem w hx)
    obtain ⟨evs1, s1, hstep, hp1, hc1⟩ := modeChangeStep_no_ffm_fail s n w hv
    obtain ⟨ih2, ihp, ihc⟩ := ih (n + 1) s1 hvt
    have hunfold : List.enumFrom n (w :: t) = (n, w) :: List.enumFrom (n + 1) t := by
      simp [List.enumFrom]
    rw [hunfold]
    simp only [runWaypoints, hstep]
    refine ⟨ih2, ?_, ?_⟩
    · rw [positionsOf_append, positionsOf_append, hp1, lightsStep_positions]
      simp only [List.nil_append]
      have : positionsOf (Ev.setPosition w.pos ::
          (runWaypoints (fun _ => false) smF total s1 (List.enumFrom (n + 1) t)).1) =
          w.pos :: positionsOf
            (runWaypoints (fun _ => false) smF total s1 (List.enumFrom (n + 1) t)).1 := by
        simp [positionsOf]
      rw [this, ihp]
      simp
    · rw [colorsPushed_append, colorsPushed_append, hc1, lightsStep_colors]
      simp only [List.nil_append]
      have hset : colorsPushed (Ev.setPosition w.pos ::
          (runWaypoints (fun _ => false) smF total s1 (List.enumFrom (n + 1) t)).1) =
          colorsPushed
            (runWaypoints (fun _ => false) smF total s1 (List.enumFrom (n + 1) t)).1 := by
        simp [colorsPushed]
      rw [hset, ihc, List.filter_cons]
      by_cases hcond : w.mode = 50 ∧ n % 10 = 0 ∧ smF n = false
      · simp [hcond]
      · simp [hcond]

lemma mission_complete_eq (obStopF : Bool) (ffmF smF : ℕ → Bool) (ws : List Waypoint)
    (h : (runWaypoints ffmF smF ws.length ⟨0, false⟩ (List.enumFrom 0 ws)).2 = true) :
    mission false obStopF ffmF smF ws =
      [Ev.arm, Ev.setInitial, Ev.offboardStarted] ++
        (runWaypoints ffmF smF ws.length ⟨0, false⟩ (List.enumFrom 0 ws)).1 ++
        [Ev.land, if obStopF then Ev.offboardStopFailed else Ev.offboardStopOk, Ev.disarm] := by
  simp only [mission, List.enum, h, if_true, Bool.false_eq_true, if_false]

lemma mission_crash_eq (obStopF : Bool) (ffmF smF : ℕ → Bool) (ws : List Waypoint)
    (h : (runWaypoints ffmF smF ws.length ⟨0, false⟩ (List.enumFrom 0 ws)).2 = false) :
    mission false obStopF ffmF smF ws =
      [Ev.arm, Ev.setInitial, Ev.offboardStarted] ++
        (runWaypoints ffmF smF ws.length ⟨0, false⟩ (List.enumFrom 0 ws)).1 := by
  simp only [mission, List.enum, h, Bool.false_eq_true, if_false]

lemma colorsPushed_mission (obStopF : Bool) (smF : ℕ → Bool) (ws : List Waypoint)
    (hv : ∀ w ∈ ws, validMode w.mode = true) :
    colorsPushed (mission false obStopF (fun _ => false) smF ws) =
      ((List.enumFrom 0 ws).filter
          fun p => p.2.mode = 50 ∧ p.1 % 10 = 0 ∧ smF p.1 = false).map
        fun p => interpolate_color p.1 ws.length := by
  obtain ⟨h2, _, hc⟩ := runWaypoints_no_ffm_fail smF ws.length ws 0 ⟨0, false⟩ hv
  rw [mission_complete_eq obStopF (fun _ => false) smF ws h2,
    colorsPushed_append, colorsPushed_append, hc]
  have h1 : colorsPushed [Ev.arm, Ev.setInitial, Ev.offboardStarted] = [] := rfl
  have h3 : colorsPushed
      [Ev.land, if obStopF then Ev.offboardStopFailed else Ev.offboardStopOk, Ev.disarm] = [] := by
    cases obStopF <;> rfl
  rw [h1, h3]
  simp

/-- C3 counterexample: a device failure of the mode-change
`follow_flight_mode` command (at step 1 of the two-waypoint mission
`wsLightsCrash`) is NOT caught: the mission aborts mid-loop — the remaining
waypoint's position command, the landing and the disarm never execute. -/
theorem ffm_failure_aborts_mission :
    mission false false (fun i => i == 1) (fun _ => false) wsLightsCrash =
      [.arm, .setInitial, .offboardStarted, .modeChange 50,
       .setMatrixOk (interpolate_color 0 2), .setPosition (0, 0, 0), .modeChange 10] ∧
    Ev.land ∉ mission false false (fun i => i == 1) (fun _ => false) wsLightsCrash ∧
    Ev.disarm ∉ mission false false (fun i => i == 1) (fun _ => false) wsLightsCrash ∧
    Ev.setPosition (1, 1, 1) ∉
      mission false false (fun i => i == 1) (fun _ => false) wsLightsCrash := by
  have hr : runWaypoints (fun i => i == 1) (fun _ => false) wsLightsCrash.length ⟨0, false⟩
      (List.enumFrom 0 wsLightsCrash) =
      ([.modeChange 50, .setMatrixOk (interpolate_color 0 2),
        .setPosition (0, 0, 0), .modeChange 10], false) := by
    norm_num [wsLightsCrash, List.enumFrom, runWaypoints, modeChangeStep, lightsStep, validMode]
  have h : mission false false (fun i => i == 1) (fun _ => false) wsLightsCrash =
      [.arm, .setInitial, .offboardStarted, .modeChange 50,
       .setMatrixOk (interpolate_color 0 2), .setPosition (0, 0, 0), .modeChange 10] := by
    rw [mission_crash_eq false (fun i => i == 1) (fun _ => false) wsLightsCrash (by rw [hr]), hr]
    rfl
  refine ⟨h, ?_, ?_, ?_⟩ <;> rw [h] <;> simp

/-- C3 (amended): a `LightsError` from the periodic `set_matrix` update is
caught and reported, and the mission continues uninterrupted — every
waypoint's position command is still issued in order, and landing and disarm
still execute — even when every matrix update fails; but a failure of the
mode-change `follow_flight_mode` command is unhandled and aborts the mission
(see the counterexample). -/
theorem matrix_failure_mission_continues (obStopF : Bool) (smF : ℕ → Bool)
    (ws : List Waypoint) (hv : ∀ w ∈ ws, validMode w.mode = true) :
    positionsOf (mission false obStopF (fun _ => false) smF ws) = ws.map (·.pos) ∧
    Ev.land ∈ mission false obStopF (fun _ => false) smF ws ∧
    (mission false obStopF (fun _ => false) smF ws).getLast? = some Ev.disarm := by
  obtain ⟨h2, hp, _⟩ := runWaypoints_no_ffm_fail smF ws.length ws 0 ⟨0, false⟩ hv
  rw [mission_complete_eq obStopF (fun _ => false) smF ws h2]
  refine ⟨?_, ?_, ?_⟩
  · rw [positionsOf_append, positionsOf_append, hp]
    have h1 : positionsOf [Ev.arm, Ev.setInitial, Ev.offboardStarted] = [] := rfl
    have h3 : positionsOf
        [Ev.land, if obStopF then Ev.offboardStopFailed else Ev.offboardStopOk, Ev.disarm] = [] := by
      cases obStopF <;> rfl
    rw [h1, h3]
    simp
  · simp
  · rw [List.append_assoc, List.getLast?_append]
    simp

/-- C3 witness: the two-waypoint mission `wsLightsCrash` with every periodic
matrix update failing still issues both positions, lands and disarms. -/
theorem matrix_failure_mission_continues_witness :
    (∀ w ∈ wsLightsCrash, validMode w.mode = true) ∧
    (positionsOf (mission false false (fun _ => false) (fun _ => true) wsLightsCrash) =
        wsLightsCrash.map (·.pos) ∧
      Ev.land ∈ mission false false (fun _ => false) (fun _ => true) wsLightsCrash ∧
      (mission false false (fun _ => false) (fun _ => true) wsLightsCrash).getLast? =
        some Ev.disarm) :=
  ⟨by decide, matrix_failure_mission_continues false (fun _ => true) wsLightsCrash (by decide)⟩

/-- C2 counterexample: in the 20-waypoint mission `wsTwoRuns` (tracing segment
of 10 points at indices 10-19), the color pushed at the tracing waypoint of
index 10 is `interpolate_color 10 20` — computed against the WHOLE waypoint
count 20 (`total_waypoints = len(waypoints)`, line 113) — which differs from
`interpolate_color 10 10`, the value the claim requires against the tracing
segment's point count 10. -/
theorem tracing_color_cex :
    colorsPushed (mission false false (fun _ => false) (fun _ => false) wsTwoRuns) =
      [interpolate_color 10 20] ∧
    specTracingCount wsTwoRuns = 10 ∧ wsTwoRuns.length = 20 ∧
    interpolate_color 10 20 ≠ interpolate_color 10 10 := by
  have hv : ∀ w ∈ wsTwoRuns, validMode w.mode = true := by decide
  have h := colorsPushed_mission false (fun _ => false) wsTwoRuns hv
  refine ⟨?_, by simp [specTracingCount, wsTwoRuns], by simp [wsTwoRuns], ?_⟩
  · rw [h]
    norm_num [wsTwoRuns, List.enumFrom]
  · have e1 : interpolate_color 10 20 = (8/11, 1, 8/11) := by
      norm_num [interpolate_color, RAINBOW_COLORS, max_def]
    have e2 : interpolate_color 10 10 = (0, -1/4, 1) := by
      norm_num [interpolate_color, RAINBOW_COLORS, max_def]
    rw [e1, e2]
    norm_num [Prod.ext_iff]

/-- C2 (amended): for every 10th waypoint of the tracing mode, the color
pushed to the indicator is the Color Interpolator applied to (waypoint index,
TOTAL number of waypoints in the flattened sequence) — `len(waypoints)`, not
the tracing segment's point count. -/
theorem tracing_color_uses_full_total (ws : List Waypoint)
    (hv : ∀ w ∈ ws, validMode w.mode = true) :
    colorsPushed (mission false false (fun _ => false) (fun _ => false) ws) =
      (specStrideIndices ws).map fun i => interpolate_color i ws.length := by
  rw [colorsPushed_mission false (fun _ => false) ws hv]
  unfold specStrideIndices
  rw [List.map_map]
  simp only [eq_self_iff_true, and_true]
  rfl

/-- C2 witness: the amended theorem at the concrete mission `wsTwoRuns`. -/
theorem tracing_color_uses_full_total_witness :
    (∀ w ∈ wsTwoRuns, validMode w.mode = true) ∧
    colorsPushed (mission false false (fun _ => false) (fun _ => false) wsTwoRuns) =
      (specStrideIndices wsTwoRuns).map fun i => interpolate_color i wsTwoRuns.length :=
  ⟨by decide, tracing_color_uses_full_total wsTwoRuns (by decide)⟩

lemma candT_accept (f : ℚ → Pt) (s t : ℚ) (prev : Pt) (hc : ¬ 1 < candT f s t prev) :
    distGe prev (f (candT f s t prev)) s := by
  have hspec := Nat.find_spec (innerProp_exists f s t prev)
  unfold innerProp at hspec
  rcases hspec with h1 | h2
  · exact absurd h1 (by rw [candT] at hc; exact hc)
  · rw [candT]
    exact h2

/-- Every point the adaptive search accepts passes the spacing test against
the previously accepted point. -/
lemma spiralAux_chain (f : ℚ → Pt) (s : ℚ) (t : ℚ) (prev : Pt) :
    List.Chain (fun a b => distGe a b s) prev ((spiralAux f s t prev).map (·.2)) := by
  induction t, prev using spiralAux.induct f s with
  | case1 t prev h hc =>
    rw [spiralAux, dif_pos h, dif_pos hc]
    simp
  | case2 t prev h hc ih =>
    rw [spiralAux, dif_pos h, dif_neg hc]
    simp only [List.map_cons]
    exact List.Chain.cons (candT_accept f s t prev hc) ih
  | case3 t prev h =>
    rw [spiralAux, dif_neg h]
    simp

/-- Every accepted parameter stays in `[0, 1]`: a candidate parameter beyond
1 makes the sampler return instead of accepting. -/
lemma spiralAux_param_le (f : ℚ → Pt) (s : ℚ) (t : ℚ) (prev : Pt) :
    ∀ p ∈ spiralAux f s t prev, p.1 ≤ 1 := by
  induction t, prev using spiralAux.induct f s with
  | case1 t prev h hc =>
    rw [spiralAux, dif_pos h, dif_pos hc]
    simp
  | case2 t prev h hc ih =>
    rw [spiralAux, dif_pos h, dif_neg hc]
    intro p hp
    rcases List.mem_cons.mp hp with rfl | hp'
    · exact le_of_not_lt hc
    · exact ih p hp'
  | case3 t prev h =>
    rw [spiralAux, dif_neg h]
    simp

/-- Each accepted step advances the parameter by at least the seed increment,
so the accepted-point count is bounded by the ceiling measure. -/
lemma spiralAux_length_le (f : ℚ → Pt) (s : ℚ) (t : ℚ) (prev : Pt) :
    (spiralAux f s t prev).length ≤ (⌈(1 - t) / seedDt⌉).toNat := by
  induction t, prev using spiralAux.induct f s with
  | case1 t prev h hc =>
    rw [spiralAux, dif_pos h, dif_pos hc]
    simp
  | case2 t prev h hc ih =>
    rw [spiralAux, dif_pos h, dif_neg hc]
    simp only [List.length_cons]
    have hdec := ceil_measure_lt t (candT f s t prev) h (le_of_not_lt hc) (candT_ge f s t prev)
    omega
  | case3 t prev h =>
    rw [spiralAux, dif_neg h]
    simp

/-- C9: for every curve evaluator and positive spacing, the spiral sampler's
first point is the evaluator at parameter 0, and each pair of consecutive
points is at squared distance at least the squared spacing (the exact-field
form of "distance at least the spacing"). -/
theorem spiral_spacing_and_head (f : ℚ → Pt) (s : ℚ) (hs : 0 < s) :
    (generate_spiral f s).head? = some (f 0) ∧
    List.Chain' (fun a b => s ^ 2 ≤ sqDist a b) (generate_spiral f s) := by
  refine ⟨rfl, ?_⟩
  have hch := spiralAux_chain f s 0 (f 0)
  have hch2 : List.Chain (fun a b => s ^ 2 ≤ sqDist a b) (f 0)
      ((spiralAux f s 0 (f 0)).map (·.2)) := by
    refine List.Chain.imp ?_ hch
    intro a b hab
    rcases hab with h1 | h2
    · exact absurd h1 (not_le.mpr hs)
    · exact h2
  unfold generate_spiral
  exact hch2

/-- C9 witness: the constant evaluator at spacing `1/2` (the sampler emits
only the initial point, on which the chain condition holds vacuously). -/
theorem spiral_spacing_and_head_witness :
    (0 : ℚ) < 1/2 ∧
    ((generate_spiral (fun _ => ((0 : ℚ), (0 : ℚ), (0 : ℚ))) (1/2)).head? =
        some ((fun _ => ((0 : ℚ), (0 : ℚ), (0 : ℚ))) 0) ∧
      List.Chain' (fun a b => (1/2 : ℚ) ^ 2 ≤ sqDist a b)
        (generate_spiral (fun _ => ((0 : ℚ), (0 : ℚ), (0 : ℚ))) (1/2))) :=
  ⟨by norm_num,
    spiral_spacing_and_head (fun _ => ((0 : ℚ), (0 : ℚ), (0 : ℚ))) (1/2) (by norm_num)⟩

/-- C10: the spiral sampler always terminates — the inner search's geometric
growth of `dt` eventually pushes the candidate parameter past 1 (this is what
makes `candT` well defined), and each accepted step advances the parameter by
at least the seed `0.0001`, so at most 10000 points are accepted after the
initial one; moreover every accepted point's parameter is at most 1 (the
sampler returns exactly when a candidate exceeds 1, so the exact endpoint
`t = 1` need not be emitted). -/
theorem spiral_terminates_bounded (f : ℚ → Pt) (s : ℚ) :
    (generate_spiral f s).length ≤ 10001 ∧
    ∀ p ∈ spiralAux f s 0 (f 0), p.1 ≤ 1 := by
  refine ⟨?_, spiralAux_param_le f s 0 (f 0)⟩
  have h := spiralAux_length_le f s 0 (f 0)
  have hc : (⌈(1 - (0 : ℚ)) / seedDt⌉).toNat = 10000 := by
    norm_num [seedDt]
    rfl
  rw [hc] at h
  unfold generate_spiral
  simp only [List.length_cons, List.length_map]
  omega
